import Mathlib

/-!
Verification development for the music-room server (shared listening rooms,
collaborative queue, playback synchronization).  The repository contains five
near-duplicate server variants; each is embedded in its own namespace:

* `P0` — `src/unnamed/part_000` (synchronous `playNext`, create-on-demand rooms)
* `P1` — `src/unnamed/part_001` (asynchronous `makePlayNext` with the
  Piped-first resolver and `setImmediate` retry)
* `P2` — `src/unnamed/part_002` (synchronous `makePlayNext`, validated queueing)
* `P3` — `src/unnamed/part_003` (ytdl variant with explicit `initializeRoom`
  and the idle-clear branch of `playNext`)
* `S`  — `src/server.js` (the active, un-commented portion at the bottom of
  the file)

State is modelled as in the JavaScript: the global `rooms` object is an
insertion-ordered association list of room code to room record, and every
socket handler is a pure function from registry (plus the event payload and
the current wall clock in milliseconds, as a rational) to the new registry
together with the list of messages it emits.  Await points of asynchronous
handlers are made explicit: the resolver is an oracle argument, and for the
mid-resolution race of `part_001` the events processed during the await are an
explicit registry transformer.
-/

namespace MusicJam

/-- A connected member of a room: `{ id: socket.id, name }` in the source. -/
structure User where
  id : String
  name : String
deriving DecidableEq

/-- An entry of `room.queue`: `{ title, thumbnail, originalUrl, audioUrl }`. -/
structure QueuedTrack where
  title : String
  thumbnail : Option String
  originalUrl : String
  audioUrl : Option String
deriving DecidableEq

/-- The per-room record stored in the global `rooms` object.  `timestamp` is
the playback position in seconds, `lastUpdate` the wall clock (milliseconds,
as `Date.now()`) at which the transport fields were last written. -/
structure Room where
  currentSongUrl : Option String
  currentTitle : String
  currentThumbnail : Option String
  queue : List QueuedTrack
  users : List User
  isPlaying : Bool
  timestamp : ℚ
  lastUpdate : ℚ
deriving DecidableEq

/-- The fresh room literal every variant uses when creating a room. -/
def freshRoom (now : ℚ) : Room :=
  { currentSongUrl := none
    currentTitle := "No Song Playing"
    currentThumbnail := none
    queue := []
    users := []
    isPlaying := false
    timestamp := 0
    lastUpdate := now }

/-- The global `rooms` object: an insertion-ordered map from room code to
room record (JavaScript objects preserve string-key insertion order, which
the `for (const code in rooms)` disconnect scan relies on). -/
abbrev Registry := List (String × Room)

/-- `rooms[code]` lookup. -/
def rlookup : Registry → String → Option Room
  | [], _ => none
  | (c, r) :: rest, code => if c = code then some r else rlookup rest code

/-- `rooms[code] = r` assignment: replaces in place if present, appends
otherwise (JavaScript object key-order semantics). -/
def rset : Registry → String → Room → Registry
  | [], code, r => [(code, r)]
  | (c, x) :: rest, code, r =>
      if c = code then (c, r) :: rest else (c, x) :: rset rest code r

/-- `delete rooms[code]`. -/
def rdelete : Registry → String → Registry
  | [], _ => []
  | (c, x) :: rest, code =>
      if c = code then rest else (c, x) :: rdelete rest code

/-- `queue.shift()`: removes and returns the first element of the queue, or
returns absent when the queue is empty. -/
def shift {α : Type} : List α → Option α × List α
  | [] => (none, [])
  | a :: rest => (some a, rest)

/-- Outbound messages (socket.io event payloads). -/
inductive Msg where
  | playSong (url : Option String) (title : String) (thumbnail : Option String)
  | queueUpdated (q : List QueuedTrack)
  | updateUsers (us : List User)
  | syncState (url : Option String) (title : String) (thumbnail : Option String)
      (playing : Bool) (timestamp : ℚ) (q : List QueuedTrack)
  | songError (text : String)
  | receivePause (t : ℚ)
  | receivePlay (t : ℚ)
  | receiveSeek (t : ℚ)
deriving DecidableEq

/-- A delivery: `io.to(code).emit` reaches every member of the room,
`socket.to(code).emit` reaches every member except the sender, and
`socket.emit` is addressed to a single connection. -/
inductive Send where
  | toRoom (code : String) (m : Msg)
  | toRoomExceptSender (code : String) (sender : String) (m : Msg)
  | toSocket (sid : String) (m : Msg)
deriving DecidableEq

/-- Whether a delivery reaches the connection `uid`, judged against the room
membership recorded in the registry (membership of the socket.io room tracks
`room.users`: both are updated together by the join handler). -/
def deliveredTo (reg : Registry) (s : Send) (uid : String) : Bool :=
  match s with
  | .toRoom code _ =>
      match rlookup reg code with
      | some room => room.users.any (fun u => u.id == uid)
      | none => false
  | .toRoomExceptSender code sender _ =>
      if uid = sender then false
      else
        match rlookup reg code with
        | some room => room.users.any (fun u => u.id == uid)
        | none => false
  | .toSocket sid _ => uid == sid

/-- JavaScript falsiness of an optional string (`null`/`undefined`/`""`). -/
def optFalsy : Option String → Bool
  | none => true
  | some s => s.isEmpty

/-- Character-list prefix test (executable model of `String.startsWith`,
whose core implementation does not reduce in the kernel). -/
def charsStart : List Char → List Char → Bool
  | [], _ => true
  | _ :: _, [] => false
  | p :: ps, c :: cs => p == c && charsStart ps cs

/-- `s.startsWith(p)` of JavaScript. -/
def strStarts (p s : String) : Bool := charsStart p.data s.data

/-- `username || defaultName` as used by every join handler. -/
def defaultName (uid uname : String) : String :=
  if uname = "" then "User " ++ uid.take 4 else uname

/-- The duplicate-free member insert shared verbatim by every variant's join
handler: `if (!room.users.find(u => u.id === socket.id)) room.users.push(..)`. -/
def addUser (users : List User) (uid uname : String) : List User :=
  if users.any (fun u => u.id == uid) then users
  else users ++ [⟨uid, defaultName uid uname⟩]

/-- First-occurrence removal, `users.splice(users.findIndex(..), 1)`. -/
def removeFirstUser : List User → String → List User
  | [], _ => []
  | u :: rest, uid => if u.id = uid then rest else u :: removeFirstUser rest uid

/-- `room.users.findIndex(u => u.id === id) !== -1`. -/
def hasUser (r : Room) (uid : String) : Bool :=
  r.users.any (fun u => u.id == uid)

/-- The proxy URL built for a dequeued track
(`/stream?url=` + the original locator; the percent-encoding applied by
`encodeURIComponent` is an injective string transform irrelevant to every
claim and is not modelled). -/
def streamProxyUrl (orig : String) : String := "/stream?url=" ++ orig

/-- The live-position computation every join handler performs before the
`sync_state` snapshot (part_000 lines 139-143, part_002 lines 422-426,
part_003 lines 182-186, server.js lines 535-536):
`adjusted = timestamp; if (isPlaying) adjusted += (now - lastUpdate) / 1000`.
`now` and `lastUpdate` are in milliseconds, the result in seconds. -/
def adjustedTime (room : Room) (now : ℚ) : ℚ :=
  if room.isPlaying then room.timestamp + (now - room.lastUpdate) / 1000
  else room.timestamp

/-- Modelled from the spec (section 4.1 ClockSync): the position estimate
`estimatePosition(room, now)` with all quantities in seconds — returns
`positionSeconds + (now - lastUpdateInstant)` when playing, otherwise
`positionSeconds` unchanged.  Used to compare the code's millisecond-based
computation against the specified contract. -/
def estimatePositionSpec (positionSeconds lastUpdateInstant now : ℚ)
    (playing : Bool) : ℚ :=
  if playing then positionSeconds + (now - lastUpdateInstant)
  else positionSeconds

namespace P0

/-- `playNext` of part_000 (lines 94-117): on a missing room or empty queue,
only clears `isPlaying` (when the room exists); otherwise shifts the queue,
installs the proxy URL as now-playing and broadcasts `play_song` then
`queue_updated`. -/
def playNext (now : ℚ) (code : String) (reg : Registry) : Registry × List Send :=
  match rlookup reg code with
  | none => (reg, [])
  | some room =>
    match shift room.queue with
    | (none, _) => (rset reg code { room with isPlaying := false }, [])
    | (some next, rest) =>
      let room' := { room with
        queue := rest
        currentSongUrl := some (streamProxyUrl next.originalUrl)
        currentTitle := next.title
        currentThumbnail := next.thumbnail
        isPlaying := true
        timestamp := 0
        lastUpdate := now }
      (rset reg code room',
       [Send.toRoom code (.playSong (some (streamProxyUrl next.originalUrl)) next.title next.thumbnail),
        Send.toRoom code (.queueUpdated rest)])

/-- `join_room` handler of part_000 (lines 119-153): create the room if
absent, insert the member unless already present, broadcast the member list,
and send the joining socket a `sync_state` snapshot carrying the
drift-adjusted position. -/
def joinRoom (now : ℚ) (code uid uname : String) (reg : Registry) :
    Registry × List Send :=
  let room0 := (rlookup reg code).getD (freshRoom now)
  let room1 := { room0 with users := addUser room0.users uid uname }
  (rset reg code room1,
   [Send.toRoom code (.updateUsers room1.users),
    Send.toSocket uid (.syncState room1.currentSongUrl room1.currentTitle
      room1.currentThumbnail room1.isPlaying (adjustedTime room1 now) room1.queue)])

/-- `disconnect` handler of part_000 (lines 155-166): scan the registry in
insertion order, remove the socket from the first room whose member list
contains it, broadcast the new member list, delete the room if now empty,
and `break`. -/
def disconnect (uid : String) : Registry → Registry × List Send
  | [] => ([], [])
  | (c, r) :: rest =>
    if hasUser r uid then
      let users' := removeFirstUser r.users uid
      if users'.isEmpty then (rest, [Send.toRoom c (.updateUsers users')])
      else ((c, { r with users := users' }) :: rest,
            [Send.toRoom c (.updateUsers users')])
    else
      let p := disconnect uid rest
      ((c, r) :: p.1, p.2)

/-- `request_song` handler of part_000 (lines 186-213): create the room if
absent (with an empty member list), append the track, broadcast the queue,
and trigger `playNext` when nothing is playing. -/
def requestSong (now : ℚ) (code url title : String) (thumb : Option String)
    (reg : Registry) : Registry × List Send :=
  let room0 := (rlookup reg code).getD (freshRoom now)
  let room1 := { room0 with queue := room0.queue ++ [⟨title, thumb, url, none⟩] }
  let reg1 := rset reg code room1
  if room1.isPlaying then (reg1, [Send.toRoom code (.queueUpdated room1.queue)])
  else
    let p := playNext now code reg1
    (p.1, Send.toRoom code (.queueUpdated room1.queue) :: p.2)

/-- `pause_track` handler of part_000 (lines 217-224). -/
def pauseTrack (code sender : String) (t now : ℚ) (reg : Registry) :
    Registry × List Send :=
  match rlookup reg code with
  | none => (reg, [])
  | some room =>
    (rset reg code { room with isPlaying := false, timestamp := t, lastUpdate := now },
     [Send.toRoomExceptSender code sender (.receivePause t)])

/-- `play_track` handler of part_000 (lines 226-233). -/
def playTrack (code sender : String) (t now : ℚ) (reg : Registry) :
    Registry × List Send :=
  match rlookup reg code with
  | none => (reg, [])
  | some room =>
    (rset reg code { room with isPlaying := true, timestamp := t, lastUpdate := now },
     [Send.toRoomExceptSender code sender (.receivePlay t)])

/-- `seek_track` handler of part_000 (lines 235-241): broadcast including the
sender. -/
def seekTrack (code sender : String) (t now : ℚ) (reg : Registry) :
    Registry × List Send :=
  match rlookup reg code with
  | none => (reg, [])
  | some room =>
    (rset reg code { room with timestamp := t, lastUpdate := now },
     [Send.toRoom code (.receiveSeek t)])

/-- The inbound events of the part_000 server, with the wall clock and other
external inputs carried on the event. -/
inductive Ev where
  | joinE (code uid uname : String) (now : ℚ)
  | discE (uid : String)
  | reqE (code url title : String) (thumb : Option String) (now : ℚ)
  | skipE (code : String) (now : ℚ)
  | pauseE (code sender : String) (t now : ℚ)
  | playE (code sender : String) (t now : ℚ)
  | seekE (code sender : String) (t now : ℚ)

/-- Whether an event is a `request_song`. -/
def Ev.isReq : Ev → Bool
  | .reqE _ _ _ _ _ => true
  | _ => false

/-- One event-handling step of the part_000 server (registry component). -/
def step (reg : Registry) : Ev → Registry
  | .joinE code uid uname now => (joinRoom now code uid uname reg).1
  | .discE uid => (disconnect uid reg).1
  | .reqE code url title thumb now => (requestSong now code url title thumb reg).1
  | .skipE code now => (playNext now code reg).1
  | .pauseE code sender t now => (pauseTrack code sender t now reg).1
  | .playE code sender t now => (playTrack code sender t now reg).1
  | .seekE code sender t now => (seekTrack code sender t now reg).1

/-- Run an event trace from the empty registry (process start). -/
def run (evs : List Ev) : Registry := evs.foldl step []

/-- The claimed registry invariant: every room present in the registry has
at least one member. -/
def memberInv (reg : Registry) : Prop := ∀ p ∈ reg, p.2.users ≠ []

end P0

namespace P1

/-- The result of `resolveStreamUrl` in part_001: a playable stream URL and a
mime type.  A resolver oracle returns `none` where the source function throws
(Piped and Innertube both failed) and `some` where it returns. -/
structure Resolved where
  url : String
  mimeType : String
deriving DecidableEq

/-- One invocation of the async `playNext` closure produced by `makePlayNext`
of part_001 (lines 310-349), with the suspension at
`await resolveStreamUrl(...)` made explicit.

* `resolver` is the oracle standing for `resolveStreamUrl`;
* `interf` is the registry transformation performed by whatever events the
  single-threaded scheduler processes while this invocation is suspended at
  the `await` (the identity when nothing intervenes).

Faithful shape: the room object is looked up and its queue shifted *before*
the await; after the await the code mutates the captured room object and
emits, without consulting `rooms[roomCode]` again.  A registry models the
heap of room objects, so the post-await mutation lands in the registry only
if the code's entry still is the captured object (value equality stands in
for JavaScript reference identity; a deleted or recreated room is never the
captured object).  The emits happen unconditionally.  The returned `Bool` is
`true` when the invocation scheduled a deferred re-entry via
`setImmediate(playNext)`. -/
def playNextInvoke (resolver : String → Option Resolved) (now : ℚ)
    (code : String) (interf : Registry → Registry) (reg : Registry) :
    Registry × List Send × Bool :=
  match rlookup reg code with
  | none => (reg, [], false)
  | some room =>
    match shift room.queue with
    | (none, _) => (rset reg code { room with isPlaying := false }, [], false)
    | (some next, rest) =>
      let roomShifted := { room with queue := rest }
      let regMid := rset reg code roomShifted
      let regAwait := interf regMid
      match resolver next.originalUrl with
      | none =>
          (regAwait,
           [Send.toRoom code (.songError ("Could not load: " ++ next.title))],
           true)
      | some res =>
          let mutated := { roomShifted with
            currentSongUrl := some res.url
            currentTitle := if next.title = "" then "Unknown" else next.title
            currentThumbnail := next.thumbnail
            isPlaying := true
            timestamp := 0
            lastUpdate := now }
          let regFinal :=
            match rlookup regAwait code with
            | some r => if r = roomShifted then rset regAwait code mutated else regAwait
            | none => regAwait
          (regFinal,
           [Send.toRoom code (.playSong (some res.url) mutated.currentTitle mutated.currentThumbnail),
            Send.toRoom code (.queueUpdated roomShifted.queue)],
           false)

/-- An invocation of the part_001 `playNext` with no interleaved events. -/
def playNextStep (resolver : String → Option Resolved) (now : ℚ)
    (code : String) (reg : Registry) : Registry × List Send × Bool :=
  playNextInvoke resolver now code id reg

/-- The retry chain: run one invocation and, while it has scheduled a
deferred re-entry (`setImmediate(playNext)`), run the next invocation on the
resulting registry.  `fuel` bounds the number of invocations; each deferred
re-entry occurs with a strictly shorter queue, so any fuel of at least the
queue length settles the chain. -/
def playNextChain (resolver : String → Option Resolved) (now : ℚ)
    (code : String) : Nat → Registry → Registry × List Send
  | 0, reg => (reg, [])
  | fuel + 1, reg =>
    let p := playNextStep resolver now code reg
    if p.2.2 then
      let q := playNextChain resolver now code fuel p.1
      (q.1, p.2.1 ++ q.2)
    else (p.1, p.2.1)

end P1

namespace P2

/-- The `playNext` closure of part_002's `makePlayNext` (lines 373-397):
purely synchronous — resolution is deferred to the `/stream` endpoint, so
advancing never awaits; it shifts the queue and broadcasts immediately. -/
def playNext (now : ℚ) (code : String) (reg : Registry) : Registry × List Send :=
  match rlookup reg code with
  | none => (reg, [])
  | some room =>
    match shift room.queue with
    | (none, _) => (rset reg code { room with isPlaying := false }, [])
    | (some next, rest) =>
      let room' := { room with
        queue := rest
        currentSongUrl := some (streamProxyUrl next.originalUrl)
        currentTitle := next.title
        currentThumbnail := next.thumbnail
        isPlaying := true
        timestamp := 0
        lastUpdate := now }
      (rset reg code room',
       [Send.toRoom code (.playSong (some (streamProxyUrl next.originalUrl)) next.title next.thumbnail),
        Send.toRoom code (.queueUpdated rest)])

/-- The accepted-path tail of part_002's `request_song` handler (lines
520-548): ensure the room exists, append the track, broadcast the queue, and
start playback when idle.  The preceding availability validation and
per-socket rate limit (lines 487-518) return early without touching any room
state, so every queue mutation of the handler is this code. -/
def requestSongAccepted (now : ℚ) (code title : String) (thumb : Option String)
    (url : String) (reg : Registry) : Registry × List Send :=
  let room0 := (rlookup reg code).getD (freshRoom now)
  let room1 := { room0 with queue := room0.queue ++ [⟨title, thumb, url, none⟩] }
  let reg1 := rset reg code room1
  if room1.isPlaying then (reg1, [Send.toRoom code (.queueUpdated room1.queue)])
  else
    let p := playNext now code reg1
    (p.1, Send.toRoom code (.queueUpdated room1.queue) :: p.2)

end P2

namespace P3

/-- `initializeRoom` of part_003 (lines 134-148). -/
def initializeRoom (now : ℚ) (code : String) (reg : Registry) : Registry :=
  match rlookup reg code with
  | some _ => reg
  | none => rset reg code (freshRoom now)

/-- `playNext` of part_003 (lines 91-128): a missing room is a no-op; an
empty queue clears now-playing (`isPlaying=false`, current fields reset) and
broadcasts an idle `play_song`; otherwise the shifted track (whose stream URL
was already resolved at request time) becomes current. -/
def playNext (now : ℚ) (code : String) (reg : Registry) : Registry × List Send :=
  match rlookup reg code with
  | none => (reg, [])
  | some room =>
    match shift room.queue with
    | (none, _) =>
      let room' := { room with
        isPlaying := false
        currentSongUrl := none
        currentTitle := "No Song Playing"
        currentThumbnail := none }
      (rset reg code room', [Send.toRoom code (.playSong none "Queue Empty" none)])
    | (some next, rest) =>
      let room' := { room with
        queue := rest
        currentSongUrl := next.audioUrl
        currentTitle := next.title
        currentThumbnail := next.thumbnail
        isPlaying := true
        timestamp := 0
        lastUpdate := now }
      (rset reg code room',
       [Send.toRoom code (.playSong next.audioUrl next.title next.thumbnail),
        Send.toRoom code (.queueUpdated rest)])

/-- `join_room` handler of part_003 (lines 156-200): an empty room code is
rejected with a `song_error` to the sender; otherwise the room is created if
needed, the member inserted unless present, the member list broadcast and a
drift-adjusted `sync_state` snapshot sent to the joiner. -/
def joinRoom (now : ℚ) (code uid uname : String) (reg : Registry) :
    Registry × List Send :=
  if code = "" then (reg, [Send.toSocket uid (.songError "Room code is required")])
  else
    let room0 := (rlookup reg code).getD (freshRoom now)
    let room1 := { room0 with users := addUser room0.users uid uname }
    (rset reg code room1,
     [Send.toRoom code (.updateUsers room1.users),
      Send.toSocket uid (.syncState room1.currentSongUrl room1.currentTitle
        room1.currentThumbnail room1.isPlaying (adjustedTime room1 now) room1.queue)])

/-- `disconnect` handler of part_003 (lines 203-229): identical scan-and-break
logic to part_000. -/
def disconnect (uid : String) : Registry → Registry × List Send
  | [] => ([], [])
  | (c, r) :: rest =>
    if hasUser r uid then
      let users' := removeFirstUser r.users uid
      if users'.isEmpty then (rest, [Send.toRoom c (.updateUsers users')])
      else ((c, { r with users := users' }) :: rest,
            [Send.toRoom c (.updateUsers users')])
    else
      let p := disconnect uid rest
      ((c, r) :: p.1, p.2)

/-- `request_song` handler of part_003 (lines 262-299).  The
`await getAudioLink(youtubeUrl)` resolution is the `resolved` oracle argument
(`none` where the source function returns `null` or throws).  Missing room
code or URL is rejected; the room is created *before* resolution; a track is
enqueued only when resolution produced an `http` URL; playback starts only
when nothing is playing and no current track is set. -/
def requestSong (now : ℚ) (code sender url title thumb : String)
    (resolved : Option String) (reg : Registry) : Registry × List Send :=
  if code = "" ∨ url = "" then
    (reg, [Send.toSocket sender (.songError "Room code and URL are required")])
  else
    let reg1 := initializeRoom now code reg
    match resolved with
    | none =>
        (reg1, [Send.toSocket sender (.songError "Could not get playable link for this song")])
    | some u =>
      if strStarts "http" u then
        let room0 := (rlookup reg1 code).getD (freshRoom now)
        let room1 := { room0 with
          queue := room0.queue ++
            [⟨(if title = "" then "Unknown Track" else title), some thumb, url, some u⟩] }
        let reg2 := rset reg1 code room1
        let e1 := Send.toRoom code (.queueUpdated room1.queue)
        if !room1.isPlaying && optFalsy room1.currentSongUrl then
          let p := playNext now code reg2
          (p.1, e1 :: p.2)
        else (reg2, [e1])
      else
        (reg1, [Send.toSocket sender (.songError "Could not get playable link for this song")])

/-- `skip_track` handler of part_003 (lines 302-320): missing code or room is
answered with an error to the sender; otherwise `playNext`. -/
def skipTrack (code sender : String) (now : ℚ) (reg : Registry) :
    Registry × List Send :=
  if code = "" then (reg, [Send.toSocket sender (.songError "Room code is required")])
  else
    match rlookup reg code with
    | none => (reg, [Send.toSocket sender (.songError "Room not found")])
    | some _ => playNext now code reg

/-- `pause_track` handler of part_003 (lines 323-339): relayed to the room
excluding the sender.  (`timestamp || 0` only maps falsy values to `0`, the
identity on rationals.) -/
def pauseTrack (code sender : String) (t now : ℚ) (reg : Registry) :
    Registry × List Send :=
  if code = "" then (reg, [])
  else
    match rlookup reg code with
    | none => (reg, [])
    | some room =>
      (rset reg code { room with isPlaying := false, timestamp := t, lastUpdate := now },
       [Send.toRoomExceptSender code sender (.receivePause t)])

/-- `play_track` handler of part_003 (lines 342-358): sets `isPlaying`
whenever the room exists — without checking that a current track is set —
and relays excluding the sender. -/
def playTrack (code sender : String) (t now : ℚ) (reg : Registry) :
    Registry × List Send :=
  if code = "" then (reg, [])
  else
    match rlookup reg code with
    | none => (reg, [])
    | some room =>
      (rset reg code { room with isPlaying := true, timestamp := t, lastUpdate := now },
       [Send.toRoomExceptSender code sender (.receivePlay t)])

/-- `seek_track` handler of part_003 (lines 361-376): broadcast to the whole
room including the sender. -/
def seekTrack (code sender : String) (t now : ℚ) (reg : Registry) :
    Registry × List Send :=
  if code = "" then (reg, [])
  else
    match rlookup reg code with
    | none => (reg, [])
    | some room =>
      (rset reg code { room with timestamp := t, lastUpdate := now },
       [Send.toRoom code (.receiveSeek t)])

/-- The inbound events of the part_003 server.  `reqE` carries the result of
the `getAudioLink` await as an oracle field; every handler runs as one
non-preempted reaction step of the single-threaded scheduler. -/
inductive Ev where
  | joinE (code uid uname : String) (now : ℚ)
  | discE (uid : String)
  | reqE (code sender url title thumb : String) (resolved : Option String) (now : ℚ)
  | skipE (code sender : String) (now : ℚ)
  | pauseE (code sender : String) (t now : ℚ)
  | playE (code sender : String) (t now : ℚ)
  | seekE (code sender : String) (t now : ℚ)

/-- Whether an event is a resume (`play_track`) request. -/
def Ev.isResume : Ev → Bool
  | .playE _ _ _ _ => true
  | _ => false

/-- One event-handling step of the part_003 server (registry component). -/
def step (reg : Registry) : Ev → Registry
  | .joinE code uid uname now => (joinRoom now code uid uname reg).1
  | .discE uid => (disconnect uid reg).1
  | .reqE code sender url title thumb resolved now =>
      (requestSong now code sender url title thumb resolved reg).1
  | .skipE code sender now => (skipTrack code sender now reg).1
  | .pauseE code sender t now => (pauseTrack code sender t now reg).1
  | .playE code sender t now => (playTrack code sender t now reg).1
  | .seekE code sender t now => (seekTrack code sender t now reg).1

/-- Run an event trace from the empty registry (process start). -/
def run (evs : List Ev) : Registry := evs.foldl step []

/-- The transport invariant of a room: whenever `isPlaying` is set a current
track is set, and every queued track carries a resolved stream URL (part_003
resolves at request time and only enqueues `http` URLs). -/
def goodRoom (r : Room) : Prop :=
  (r.isPlaying = true → r.currentSongUrl ≠ none) ∧ ∀ s ∈ r.queue, s.audioUrl ≠ none

/-- The registry-wide transport invariant. -/
def inv (reg : Registry) : Prop := ∀ p ∈ reg, goodRoom p.2

end P3

namespace S

/-- `playNext` of server.js (lines 574-590): `if (!room || !room.queue.length)
return;` — a missing room **or an empty queue** is a bare early return: no
field is written and nothing is broadcast.  Otherwise identical to the
part_000 advance. -/
def playNext (now : ℚ) (code : String) (reg : Registry) : Registry × List Send :=
  match rlookup reg code with
  | none => (reg, [])
  | some room =>
    match shift room.queue with
    | (none, _) => (reg, [])
    | (some next, rest) =>
      let room' := { room with
        queue := rest
        currentSongUrl := some (streamProxyUrl next.originalUrl)
        currentTitle := next.title
        currentThumbnail := next.thumbnail
        isPlaying := true
        timestamp := 0
        lastUpdate := now }
      (rset reg code room',
       [Send.toRoom code (.playSong (some (streamProxyUrl next.originalUrl)) next.title next.thumbnail),
        Send.toRoom code (.queueUpdated rest)])

/-- `pause_track` handler of server.js (lines 563-565). -/
def pauseTrack (code sender : String) (t now : ℚ) (reg : Registry) :
    Registry × List Send :=
  match rlookup reg code with
  | none => (reg, [])
  | some room =>
    (rset reg code { room with isPlaying := false, timestamp := t, lastUpdate := now },
     [Send.toRoomExceptSender code sender (.receivePause t)])

/-- `play_track` handler of server.js (lines 566-568). -/
def playTrack (code sender : String) (t now : ℚ) (reg : Registry) :
    Registry × List Send :=
  match rlookup reg code with
  | none => (reg, [])
  | some room =>
    (rset reg code { room with isPlaying := true, timestamp := t, lastUpdate := now },
     [Send.toRoomExceptSender code sender (.receivePlay t)])

/-- `seek_track` handler of server.js (lines 569-571): `io.to(roomCode)`
broadcast including the sender. -/
def seekTrack (code sender : String) (t now : ℚ) (reg : Registry) :
    Registry × List Send :=
  match rlookup reg code with
  | none => (reg, [])
  | some room =>
    (rset reg code { room with timestamp := t, lastUpdate := now },
     [Send.toRoom code (.receiveSeek t)])

end S

/-- Concrete room for the ClockSync instance: playing, position 10 s,
last updated at wall clock 1000 ms. -/
def c3room : Room :=
  { freshRoom 0 with isPlaying := true, timestamp := 10, lastUpdate := 1000 }

/-- Concrete two-member room for the relay-audience instance. -/
def c5room : Room :=
  { freshRoom 0 with users := [⟨"a", "Ann"⟩, ⟨"b", "Beth"⟩] }

/-- Concrete room with an empty queue, a current track and `isPlaying`
still set, for the idle-advance claim. -/
def c6room : Room :=
  { freshRoom 0 with isPlaying := true, currentSongUrl := some "u", currentTitle := "X" }

/-- Concrete tracks, resolver and room for the auto-skip instance: the
resolver fails on track `Alpha` and succeeds on track `Beta`. -/
def c1A : QueuedTrack := ⟨"Alpha", none, "srcA", none⟩

def c1B : QueuedTrack := ⟨"Beta", none, "srcB", none⟩

def c1res : P1.Resolved := ⟨"http://audio/beta", "audio/mp4"⟩

def c1resolver : String → Option P1.Resolved :=
  fun s => if s = "srcB" then some c1res else none

def c1room : Room := { freshRoom 0 with queue := [c1A, c1B] }

def c1reg : Registry := [("R", c1room)]

/-- Concrete inputs for the mid-resolution deletion race: one queued track
whose resolution succeeds while the room is deleted. -/
def c9A : QueuedTrack := ⟨"Gamma", none, "srcG", none⟩

def c9res : P1.Resolved := ⟨"http://audio/gamma", "audio/mp4"⟩

def c9resolver : String → Option P1.Resolved :=
  fun s => if s = "srcG" then some c9res else none

def c9room : Room := { freshRoom 0 with queue := [c9A], users := [⟨"a", "Ann"⟩] }

def c9reg : Registry := [("R", c9room)]

/-- Interference that deletes room `"R"` while the resolver call is in
flight (the last member disconnects during the await). -/
def deleteRoomR : Registry → Registry := fun g => rdelete g "R"

/-- Concrete rooms for the double-membership disconnect instance:
connection `"x"` is (anomalously) a member of both rooms. -/
def c10roomA : Room := { freshRoom 0 with users := [⟨"x", "X"⟩, ⟨"y", "Y"⟩] }

def c10roomB : Room := { freshRoom 0 with users := [⟨"x", "X"⟩] }

/-- Concrete single-member room for the last-member-leave instance. -/
def c2room : Room := { freshRoom 0 with users := [⟨"x", "X"⟩] }

/-- Concrete part_003 trace: a join followed by a successfully resolved
song request, which auto-starts playback. -/
def c7trace : List P3.Ev :=
  [P3.Ev.joinE "R" "x" "Alice" 0,
   P3.Ev.reqE "R" "x" "yt" "Song" "th" (some "http://a") 1]

/-- The room reached by `c7trace`: playing, with a current track set. -/
def c7room : Room :=
  { currentSongUrl := some "http://a"
    currentTitle := "Song"
    currentThumbnail := some "th"
    queue := []
    users := [⟨"x", "Alice"⟩]
    isPlaying := true
    timestamp := 0
    lastUpdate := 1 }

/-- Looking up a key just assigned yields the assigned room. -/
theorem rlookup_rset_self (reg : Registry) (code : String) (r : Room) :
    rlookup (rset reg code r) code = some r := by
  induction reg with
  | nil => simp [rset, rlookup]
  | cons p rest ih =>
    obtain ⟨c, x⟩ := p
    by_cases h : c = code
    · simp [rset, rlookup, h]
    · simp [rset, rlookup, h, ih]

/-- Looking up a different key is unaffected by an assignment. -/
theorem rlookup_rset_ne (reg : Registry) {c code : String} (r : Room)
    (h : c ≠ code) : rlookup (rset reg code r) c = rlookup reg c := by
  induction reg with
  | nil => simp [rset, rlookup, Ne.symm h]
  | cons p rest ih =>
    obtain ⟨c', x⟩ := p
    by_cases h' : c' = code
    · subst h'
      have hcc : c' ≠ c := fun hc => h (hc ▸ rfl)
      simp [rset, rlookup, hcc]
    · by_cases h'' : c' = c
      · simp [rset, rlookup, h', h'', h]
      · simp [rset, rlookup, h', h'', ih]

/-- Assigning back the room a key already holds leaves the registry intact. -/
theorem rset_eq_of_rlookup {reg : Registry} {code : String} {r : Room}
    (h : rlookup reg code = some r) : rset reg code r = reg := by
  induction reg with
  | nil => simp [rlookup] at h
  | cons p rest ih =>
    obtain ⟨c, x⟩ := p
    by_cases hc : c = code
    · subst hc
      simp [rlookup] at h
      simp [rset, h]
    · simp [rlookup, hc] at h
      simp [rset, hc, ih h]

/-- Two consecutive assignments to the same key collapse to the second. -/
theorem rset_rset_self (reg : Registry) (code : String) (r r' : Room) :
    rset (rset reg code r) code r' = rset reg code r' := by
  induction reg with
  | nil => simp [rset]
  | cons p rest ih =>
    obtain ⟨c, x⟩ := p
    by_cases h : c = code <;> simp [rset, h, ih]

/-- A successful lookup is membership of the association list. -/
theorem mem_of_rlookup {reg : Registry} {code : String} {r : Room}
    (h : rlookup reg code = some r) : (code, r) ∈ reg := by
  induction reg with
  | nil => simp [rlookup] at h
  | cons p rest ih =>
    obtain ⟨c, x⟩ := p
    by_cases hc : c = code
    · subst hc
      simp [rlookup] at h
      simp [h]
    · simp [rlookup, hc] at h
      exact List.mem_cons_of_mem _ (ih h)

/-- Every entry after an assignment is the assigned pair or an old entry. -/
theorem mem_rset {reg : Registry} {code : String} {r : Room} {p : String × Room}
    (h : p ∈ rset reg code r) : p = (code, r) ∨ p ∈ reg := by
  induction reg with
  | nil => simp [rset] at h; simp [h]
  | cons q rest ih =>
    obtain ⟨c, x⟩ := q
    by_cases hc : c = code
    · subst hc
      simp [rset] at h
      rcases h with h | h
      · exact Or.inl (by simp [h])
      · exact Or.inr (List.mem_cons_of_mem _ h)
    · simp [rset, hc] at h
      rcases h with h | h
      · exact Or.inr (by simp [h])
      · rcases ih h with h' | h'
        · exact Or.inl h'
        · exact Or.inr (List.mem_cons_of_mem _ h')

/-- A key held by no entry looks up to `none`. -/
theorem rlookup_eq_none {reg : Registry} {code : String}
    (h : ∀ p ∈ reg, p.1 ≠ code) : rlookup reg code = none := by
  induction reg with
  | nil => rfl
  | cons p rest ih =>
    obtain ⟨c, x⟩ := p
    have hc : c ≠ code := h (c, x) (by simp)
    simp [rlookup, hc]
    exact ih fun q hq => h q (List.mem_cons_of_mem _ hq)

/-- The member list produced by `addUser` always contains the added id. -/
theorem addUser_any (users : List User) (uid uname : String) :
    (addUser users uid uname).any (fun u => u.id == uid) = true := by
  by_cases h : users.any (fun u => u.id == uid)
  · simp [addUser, h]
  · simp [addUser, h]

/-- Inserting an id already inserted changes nothing. -/
theorem addUser_idem (users : List User) (uid n n' : String) :
    addUser (addUser users uid n) uid n' = addUser users uid n := by
  show (if (addUser users uid n).any (fun u => u.id == uid) then addUser users uid n
        else addUser users uid n ++ [⟨uid, defaultName uid n'⟩]) = addUser users uid n
  rw [addUser_any]
  simp

/-- C3: the position estimate delivered in a state snapshot.  (i) The
`sync_state` payload emitted by the join handler carries exactly
`adjustedTime room now` as its timestamp, the other transport fields
verbatim; (ii) the code's millisecond computation agrees with the spec's
second-based `estimatePosition` contract after unit conversion, preserving
sub-second precision (rationals, no rounding); (iii) with `isPlaying`,
position 10 s and last update at instant `T`, the estimate at `T + 5` s
(i.e. `T + 5000` ms) is 15; (iv) when paused the estimate is the stored
position unchanged, at every later instant. -/
theorem c3_position_snapshot :
    (∀ (reg : Registry) (code uid uname : String) (now : ℚ) (room : Room),
      rlookup reg code = some room →
      (P0.joinRoom now code uid uname reg).2 =
        [Send.toRoom code (.updateUsers (addUser room.users uid uname)),
         Send.toSocket uid (.syncState room.currentSongUrl room.currentTitle
           room.currentThumbnail room.isPlaying (adjustedTime room now) room.queue)])
    ∧ (∀ (room : Room) (now : ℚ),
        adjustedTime room now =
          estimatePositionSpec room.timestamp (room.lastUpdate / 1000) (now / 1000)
            room.isPlaying)
    ∧ (∀ T : ℚ,
        adjustedTime { freshRoom 0 with isPlaying := true, timestamp := 10, lastUpdate := T } (T + 5000) = 15)
    ∧ (∀ (room : Room) (now : ℚ), room.isPlaying = false →
        adjustedTime room now = room.timestamp) := by
  refine ⟨?_, ?_, ?_, ?_⟩
  · intro reg code uid uname now room h
    simp [P0.joinRoom, h, adjustedTime]
  · intro room now
    unfold adjustedTime estimatePositionSpec
    cases hp : room.isPlaying
    · simp
    · simp
      ring
  · intro T
    simp [adjustedTime, freshRoom]
    norm_num
  · intro room now h
    simp [adjustedTime, h]

/-- C3 witness: the theorem instantiated at a concrete playing room
(position 10 s, last update 1000 ms) queried 5000 ms later. -/
theorem c3_position_snapshot_witness :
    (P0.joinRoom (1000 + 5000) "R" "x" "Alice" [("R", c3room)]).2 =
      [Send.toRoom "R" (.updateUsers (addUser c3room.users "x" "Alice")),
       Send.toSocket "x" (.syncState c3room.currentSongUrl c3room.currentTitle
         c3room.currentThumbnail c3room.isPlaying (adjustedTime c3room (1000 + 5000))
         c3room.queue)]
    ∧ adjustedTime c3room (1000 + 5000) = 15 :=
  ⟨c3_position_snapshot.1 [("R", c3room)] "R" "x" "Alice" (1000 + 5000) c3room rfl,
   c3_position_snapshot.2.2.1 1000⟩

/-- C8: join and leave are idempotent.  (i) The member insert never inserts a
duplicate id; (ii) processing a second `join_room` for the same connection id
leaves the registry exactly as after the first join (same member count, same
everything); (iii) a disconnect for a connection that is a member of no room
leaves the registry untouched and emits nothing. -/
theorem c8_join_leave_idempotent :
    (∀ (users : List User) (uid n n' : String),
        addUser (addUser users uid n) uid n' = addUser users uid n)
    ∧ (∀ (reg : Registry) (code uid n1 n2 : String) (now1 now2 : ℚ),
        (P0.joinRoom now2 code uid n2 (P0.joinRoom now1 code uid n1 reg).1).1 =
          (P0.joinRoom now1 code uid n1 reg).1)
    ∧ (∀ (reg : Registry) (uid : String),
        (∀ p ∈ reg, hasUser p.2 uid = false) →
        P0.disconnect uid reg = (reg, [])) := by
  refine ⟨addUser_idem, ?_, ?_⟩
  · intro reg code uid n1 n2 now1 now2
    simp only [P0.joinRoom, rlookup_rset_self, Option.getD_some]
    rw [rset_rset_self]
    simp [addUser_idem]
  · intro reg uid h
    induction reg with
    | nil => rfl
    | cons p rest ih =>
      obtain ⟨c, r⟩ := p
      have hc : hasUser r uid = false := h (c, r) (by simp)
      have hrest := ih fun q hq => h q (List.mem_cons_of_mem _ hq)
      simp [P0.disconnect, hc, hrest]

/-- C8 witness: a second join by `"x"` into room `"R"` changes nothing, and a
disconnect of `"z"`, a member of no room, is a no-op. -/
theorem c8_join_leave_idempotent_witness :
    (P0.joinRoom 7 "R" "x" "Bob" (P0.joinRoom 3 "R" "x" "Alice" []).1).1 =
      (P0.joinRoom 3 "R" "x" "Alice" []).1
    ∧ P0.disconnect "z" (P0.joinRoom 3 "R" "x" "Alice" []).1 =
        ((P0.joinRoom 3 "R" "x" "Alice" []).1, []) :=
  ⟨c8_join_leave_idempotent.2.1 [] "R" "x" "Alice" "Bob" 3 7,
   c8_join_leave_idempotent.2.2 (P0.joinRoom 3 "R" "x" "Alice" []).1 "z" (by decide)⟩

/-- C4: the queue is FIFO.  Three tracks requested in order into an idle
(fresh) room are consumed in that order: the first starts playing at request
time (advance fires on the idle room), the second and third are appended at
the back, and successive advances select them front-first; after the third is
consumed the queue is empty, and `shift` (the `queue.shift()` dequeue used by
every advance) yields absent on an empty queue.  Resolution in part_002 is
deferred to the streaming endpoint, so no delay in resolving the first track
can reorder consumption — advance never suspends. -/
theorem c4_queue_fifo (code : String) (now : ℚ)
    (t1 t2 t3 u1 u2 u3 : String) (th1 th2 th3 : Option String) :
    (rlookup (P2.requestSongAccepted now code t1 th1 u1 []).1 code).map
        (fun r => (r.currentTitle, r.queue)) = some (t1, [])
    ∧ (rlookup (P2.requestSongAccepted now code t3 th3 u3
          (P2.requestSongAccepted now code t2 th2 u2
            (P2.requestSongAccepted now code t1 th1 u1 []).1).1).1 code).map
        (fun r => (r.currentTitle, r.queue)) =
        some (t1, [⟨t2, th2, u2, none⟩, ⟨t3, th3, u3, none⟩])
    ∧ (rlookup (P2.playNext now code
          (P2.requestSongAccepted now code t3 th3 u3
            (P2.requestSongAccepted now code t2 th2 u2
              (P2.requestSongAccepted now code t1 th1 u1 []).1).1).1).1 code).map
        (fun r => (r.currentTitle, r.queue)) = some (t2, [⟨t3, th3, u3, none⟩])
    ∧ (rlookup (P2.playNext now code (P2.playNext now code
          (P2.requestSongAccepted now code t3 th3 u3
            (P2.requestSongAccepted now code t2 th2 u2
              (P2.requestSongAccepted now code t1 th1 u1 []).1).1).1).1).1 code).map
        (fun r => (r.currentTitle, r.queue)) = some (t3, [])
    ∧ shift ([] : List QueuedTrack) = ((none : Option QueuedTrack), []) := by
  refine ⟨?_, ?_, ?_, ?_, rfl⟩ <;>
    simp [P2.requestSongAccepted, P2.playNext, rlookup, rset, shift, freshRoom]

/-- A member list containing `m` answers the membership scan for `m.id`. -/
theorem users_any_self {users : List User} {m : User} (hm : m ∈ users) :
    users.any (fun u => u.id == m.id) = true :=
  List.any_eq_true.2 ⟨m, hm, by simp⟩

/-- C5: relay audiences.  In both the part_003 and server.js handlers, a
pause or resume request is relayed with `socket.to(room)` — delivered to
every member other than the sender and never echoed to the sender — while a
seek request is broadcast with `io.to(room)` — delivered to every member of
the room, the sender included. -/
theorem c5_relay_audiences
    (reg : Registry) (code sender : String) (room : Room) (m : User) (t now : ℚ)
    (hroom : rlookup reg code = some room) (hm : m ∈ room.users)
    (hcode : code ≠ "") :
    ((P3.pauseTrack code sender t now reg).2 =
        [Send.toRoomExceptSender code sender (.receivePause t)]
      ∧ deliveredTo (P3.pauseTrack code sender t now reg).1
          (Send.toRoomExceptSender code sender (.receivePause t)) sender = false
      ∧ (m.id ≠ sender →
          deliveredTo (P3.pauseTrack code sender t now reg).1
            (Send.toRoomExceptSender code sender (.receivePause t)) m.id = true))
    ∧ ((P3.playTrack code sender t now reg).2 =
        [Send.toRoomExceptSender code sender (.receivePlay t)]
      ∧ deliveredTo (P3.playTrack code sender t now reg).1
          (Send.toRoomExceptSender code sender (.receivePlay t)) sender = false
      ∧ (m.id ≠ sender →
          deliveredTo (P3.playTrack code sender t now reg).1
            (Send.toRoomExceptSender code sender (.receivePlay t)) m.id = true))
    ∧ ((P3.seekTrack code sender t now reg).2 = [Send.toRoom code (.receiveSeek t)]
      ∧ deliveredTo (P3.seekTrack code sender t now reg).1
          (Send.toRoom code (.receiveSeek t)) m.id = true)
    ∧ ((S.pauseTrack code sender t now reg).2 =
        [Send.toRoomExceptSender code sender (.receivePause t)]
      ∧ deliveredTo (S.pauseTrack code sender t now reg).1
          (Send.toRoomExceptSender code sender (.receivePause t)) sender = false
      ∧ (m.id ≠ sender →
          deliveredTo (S.pauseTrack code sender t now reg).1
            (Send.toRoomExceptSender code sender (.receivePause t)) m.id = true))
    ∧ ((S.playTrack code sender t now reg).2 =
        [Send.toRoomExceptSender code sender (.receivePlay t)]
      ∧ deliveredTo (S.playTrack code sender t now reg).1
          (Send.toRoomExceptSender code sender (.receivePlay t)) sender = false
      ∧ (m.id ≠ sender →
          deliveredTo (S.playTrack code sender t now reg).1
            (Send.toRoomExceptSender code sender (.receivePlay t)) m.id = true))
    ∧ ((S.seekTrack code sender t now reg).2 = [Send.toRoom code (.receiveSeek t)]
      ∧ deliveredTo (S.seekTrack code sender t now reg).1
          (Send.toRoom code (.receiveSeek t)) m.id = true) := by
  refine ⟨⟨?_, ?_, fun hne => ?_⟩, ⟨?_, ?_, fun hne => ?_⟩, ⟨?_, ?_⟩,
    ⟨?_, ?_, fun hne => ?_⟩, ⟨?_, ?_, fun hne => ?_⟩, ⟨?_, ?_⟩⟩ <;>
    simp [P3.pauseTrack, P3.playTrack, P3.seekTrack, S.pauseTrack, S.playTrack,
      S.seekTrack, hroom, hcode, deliveredTo, rlookup_rset_self, users_any_self hm,
      *]

/-- C5 witness: room `"R"` with members `"a"` and `"b"`; `"a"` sends.  The
pause relay reaches `"b"` and not `"a"`; the seek broadcast reaches the
sending member. -/
theorem c5_relay_audiences_witness :
    ((P3.pauseTrack "R" "a" 3 9 [("R", c5room)]).2 =
        [Send.toRoomExceptSender "R" "a" (.receivePause 3)]
      ∧ deliveredTo (P3.pauseTrack "R" "a" 3 9 [("R", c5room)]).1
          (Send.toRoomExceptSender "R" "a" (.receivePause 3)) "a" = false
      ∧ ("b" ≠ "a" →
          deliveredTo (P3.pauseTrack "R" "a" 3 9 [("R", c5room)]).1
            (Send.toRoomExceptSender "R" "a" (.receivePause 3)) "b" = true))
    ∧ ((P3.playTrack "R" "a" 3 9 [("R", c5room)]).2 =
        [Send.toRoomExceptSender "R" "a" (.receivePlay 3)]
      ∧ deliveredTo (P3.playTrack "R" "a" 3 9 [("R", c5room)]).1
          (Send.toRoomExceptSender "R" "a" (.receivePlay 3)) "a" = false
      ∧ ("b" ≠ "a" →
          deliveredTo (P3.playTrack "R" "a" 3 9 [("R", c5room)]).1
            (Send.toRoomExceptSender "R" "a" (.receivePlay 3)) "b" = true))
    ∧ ((P3.seekTrack "R" "a" 3 9 [("R", c5room)]).2 = [Send.toRoom "R" (.receiveSeek 3)]
      ∧ deliveredTo (P3.seekTrack "R" "a" 3 9 [("R", c5room)]).1
          (Send.toRoom "R" (.receiveSeek 3)) "a" = true)
    ∧ ((S.pauseTrack "R" "a" 3 9 [("R", c5room)]).2 =
        [Send.toRoomExceptSender "R" "a" (.receivePause 3)]
      ∧ deliveredTo (S.pauseTrack "R" "a" 3 9 [("R", c5room)]).1
          (Send.toRoomExceptSender "R" "a" (.receivePause 3)) "a" = false
      ∧ ("b" ≠ "a" →
          deliveredTo (S.pauseTrack "R" "a" 3 9 [("R", c5room)]).1
            (Send.toRoomExceptSender "R" "a" (.receivePause 3)) "b" = true))
    ∧ ((S.playTrack "R" "a" 3 9 [("R", c5room)]).2 =
        [Send.toRoomExceptSender "R" "a" (.receivePlay 3)]
      ∧ deliveredTo (S.playTrack "R" "a" 3 9 [("R", c5room)]).1
          (Send.toRoomExceptSender "R" "a" (.receivePlay 3)) "a" = false
      ∧ ("b" ≠ "a" →
          deliveredTo (S.playTrack "R" "a" 3 9 [("R", c5room)]).1
            (Send.toRoomExceptSender "R" "a" (.receivePlay 3)) "b" = true))
    ∧ ((S.seekTrack "R" "a" 3 9 [("R", c5room)]).2 = [Send.toRoom "R" (.receiveSeek 3)]
      ∧ deliveredTo (S.seekTrack "R" "a" 3 9 [("R", c5room)]).1
          (Send.toRoom "R" (.receiveSeek 3)) "a" = true) := by
  have h := c5_relay_audiences [("R", c5room)] "R" "a" c5room ⟨"b", "Beth"⟩ 3 9
    rfl (by decide) (by decide)
  have ha := c5_relay_audiences [("R", c5room)] "R" "a" c5room ⟨"a", "Ann"⟩ 3 9
    rfl (by decide) (by decide)
  exact ⟨⟨h.1.1, h.1.2.1, h.1.2.2⟩, ⟨h.2.1.1, h.2.1.2.1, h.2.1.2.2⟩,
    ⟨h.2.2.1.1, ha.2.2.1.2⟩, ⟨h.2.2.2.1.1, h.2.2.2.1.2.1, h.2.2.2.1.2.2⟩,
    ⟨h.2.2.2.2.1.1, h.2.2.2.2.1.2.1, h.2.2.2.2.1.2.2⟩,
    ⟨h.2.2.2.2.2.1, ha.2.2.2.2.2.2⟩⟩

/-- C6 counterexample: in server.js, `playNext` on an existing room whose
queue is empty — here one that is currently playing track `"u"` — is a bare
early return: the registry is unchanged (`isPlaying` stays `true`, the
current track stays set) and nothing at all is broadcast, contrary to the
claimed idle-clear (`isPlaying=false`, current cleared, idle broadcast). -/
theorem c6_idle_advance_counterexample :
    S.playNext 0 "R" [("R", c6room)] = ([("R", c6room)], [])
    ∧ c6room.isPlaying = true ∧ c6room.currentSongUrl = some "u"
    ∧ c6room.queue = [] := by
  exact ⟨rfl, rfl, rfl, rfl⟩

/-- C6 (amended): advance on an existing room with an empty queue behaves
per the claim in the part_003 variant — `isPlaying` cleared, current track
cleared, an idle `play_song` broadcast, no error, both on a direct advance
and on an explicit skip, and the idle state is a fixed point of further
advances — whereas in the server.js variant the same advance is a complete
no-op: no state change and no broadcast. -/
theorem c6_idle_advance (reg : Registry) (code sender : String) (room : Room)
    (now now2 : ℚ) (hroom : rlookup reg code = some room) (hq : room.queue = [])
    (hcode : code ≠ "") :
    P3.playNext now code reg =
      (rset reg code { room with isPlaying := false, currentSongUrl := none, currentTitle := "No Song Playing", currentThumbnail := none },
       [Send.toRoom code (.playSong none "Queue Empty" none)])
    ∧ P3.skipTrack code sender now reg =
      (rset reg code { room with isPlaying := false, currentSongUrl := none, currentTitle := "No Song Playing", currentThumbnail := none },
       [Send.toRoom code (.playSong none "Queue Empty" none)])
    ∧ P3.playNext now2 code
        (rset reg code { room with isPlaying := false, currentSongUrl := none, currentTitle := "No Song Playing", currentThumbnail := none }) =
      (rset reg code { room with isPlaying := false, currentSongUrl := none, currentTitle := "No Song Playing", currentThumbnail := none },
       [Send.toRoom code (.playSong none "Queue Empty" none)])
    ∧ S.playNext now code reg = (reg, []) := by
  refine ⟨?_, ?_, ?_, ?_⟩ <;>
    simp [P3.playNext, P3.skipTrack, S.playNext, hroom, hq, hcode, shift,
      rlookup_rset_self, rset_rset_self]

/-- C6 witness: the amended behavior at the concrete room of the
counterexample — part_003 idle-clears and broadcasts, server.js does
nothing. -/
theorem c6_idle_advance_witness :
    P3.playNext 0 "R" [("R", c6room)] =
      (rset [("R", c6room)] "R" { c6room with isPlaying := false, currentSongUrl := none, currentTitle := "No Song Playing", currentThumbnail := none },
       [Send.toRoom "R" (.playSong none "Queue Empty" none)])
    ∧ S.playNext 0 "R" [("R", c6room)] = ([("R", c6room)], []) :=
  ⟨(c6_idle_advance [("R", c6room)] "R" "s" c6room 0 0 rfl rfl (by decide)).1,
   (c6_idle_advance [("R", c6room)] "R" "s" c6room 0 0 rfl rfl (by decide)).2.2.2⟩

/-- C1: auto-skip on resolver failure in the part_001 advance.  With queue
`[A, B]`, resolver failing on `A` and succeeding on `B`: (i) the first
invocation emits exactly one room-scoped error naming `A`'s title, leaves
the queue at `[B]` (no re-insertion of `A`, no other mutation), and returns
with a deferred re-entry scheduled (`setImmediate`) rather than having
advanced synchronously; (ii) the full retry chain ends with now-playing `B`
(`isPlaying=true`, position reset) and an empty queue — containing neither
`A` nor `B` — having emitted the error, the `play_song` for `B`, and the
queue snapshot; (iii) an invocation on an empty queue clears `isPlaying` and
schedules no re-entry, so the chain terminates once the queue is empty. -/
theorem c1_auto_skip
    (A B : QueuedTrack) (res : P1.Resolved) (resolver : String → Option P1.Resolved)
    (code : String) (now : ℚ) (reg : Registry) (room : Room)
    (hroom : rlookup reg code = some room) (hq : room.queue = [A, B])
    (hA : resolver A.originalUrl = none) (hB : resolver B.originalUrl = some res)
    (hBt : B.title ≠ "") :
    P1.playNextStep resolver now code reg =
      (rset reg code { room with queue := [B] },
       [Send.toRoom code (.songError ("Could not load: " ++ A.title))], true)
    ∧ P1.playNextChain resolver now code 2 reg =
      (rset reg code { room with queue := [], currentSongUrl := some res.url, currentTitle := B.title, currentThumbnail := B.thumbnail, isPlaying := true, timestamp := 0, lastUpdate := now },
       [Send.toRoom code (.songError ("Could not load: " ++ A.title)),
        Send.toRoom code (.playSong (some res.url) B.title B.thumbnail),
        Send.toRoom code (.queueUpdated [])])
    ∧ (∀ (reg2 : Registry) (room2 : Room), rlookup reg2 code = some room2 →
        room2.queue = [] →
        P1.playNextStep resolver now code reg2 =
          (rset reg2 code { room2 with isPlaying := false }, [], false)) := by
  have h1 : P1.playNextStep resolver now code reg =
      (rset reg code { room with queue := [B] },
       [Send.toRoom code (.songError ("Could not load: " ++ A.title))], true) := by
    simp [P1.playNextStep, P1.playNextInvoke, hroom, hq, hA, shift]
  refine ⟨h1, ?_, ?_⟩
  · simp only [P1.playNextChain, h1]
    simp [P1.playNextChain, P1.playNextStep, P1.playNextInvoke, rlookup_rset_self,
      shift, hB, hBt, rset_rset_self]
  · intro reg2 room2 h2 hq2
    simp [P1.playNextStep, P1.playNextInvoke, h2, hq2, shift]

/-- C1 witness: the auto-skip chain at the concrete inputs — `Alpha` fails,
`Beta` resolves to `http://audio/beta` and ends up now-playing with the
queue empty. -/
theorem c1_auto_skip_witness :
    P1.playNextChain c1resolver 0 "R" 2 c1reg =
      (rset c1reg "R" { c1room with queue := [], currentSongUrl := some c1res.url, currentTitle := c1B.title, currentThumbnail := c1B.thumbnail, isPlaying := true, timestamp := 0, lastUpdate := 0 },
       [Send.toRoom "R" (.songError ("Could not load: " ++ c1A.title)),
        Send.toRoom "R" (.playSong (some c1res.url) c1B.title c1B.thumbnail),
        Send.toRoom "R" (.queueUpdated [])]) :=
  (c1_auto_skip c1A c1B c1res c1resolver "R" 0 c1reg c1room rfl rfl (by decide)
    (by decide) (by decide)).2.1

/-- C9 counterexample: room `"R"` is deleted while the part_001 advance is
suspended in the resolver, and the arriving result is *not* discarded as a
no-op: the invocation still emits the `play_song` and `queue_updated`
broadcasts to the room code (against the claim, which requires the result to
be discarded with no effect), because the code never re-reads
`rooms[roomCode]` after the await. -/
theorem c9_stale_write_counterexample :
    P1.playNextInvoke c9resolver 0 "R" deleteRoomR c9reg =
      ([], [Send.toRoom "R" (.playSong (some c9res.url) c9A.title c9A.thumbnail),
            Send.toRoom "R" (.queueUpdated [])], false)
    ∧ [Send.toRoom "R" (.playSong (some c9res.url) c9A.title c9A.thumbnail),
       Send.toRoom "R" (.queueUpdated [])] ≠ ([] : List Send) := by
  exact ⟨rfl, by decide⟩

/-- C9 (amended): room existence is checked only at the *start* of each
invocation of the part_001 advance — an invocation that begins after the
room is gone is a true no-op — but there is no re-check after the resolver
suspension point: when the room is deleted during the await, the resolver
result is applied to the room object captured before suspension (so a
freshly recreated or absent registry entry is never updated — the final
lookup still misses) while the now-playing and queue broadcasts are emitted
to the room code regardless. -/
theorem c9_no_recheck_after_await
    (resolver : String → Option P1.Resolved) (now : ℚ) (code : String)
    (interf : Registry → Registry) (reg : Registry) :
    (rlookup reg code = none →
      P1.playNextInvoke resolver now code interf reg = (reg, [], false))
    ∧ (∀ (room : Room) (next : QueuedTrack) (rest : List QueuedTrack) (res : P1.Resolved),
        rlookup reg code = some room → room.queue = next :: rest →
        resolver next.originalUrl = some res → next.title ≠ "" →
        rlookup (interf (rset reg code { room with queue := rest })) code = none →
        P1.playNextInvoke resolver now code interf reg =
          (interf (rset reg code { room with queue := rest }),
           [Send.toRoom code (.playSong (some res.url) next.title next.thumbnail),
            Send.toRoom code (.queueUpdated rest)], false)
          ∧ rlookup (P1.playNextInvoke resolver now code interf reg).1 code = none) := by
  constructor
  · intro h
    simp [P1.playNextInvoke, h]
  · intro room next rest res h hq hres ht hgone
    have hmain : P1.playNextInvoke resolver now code interf reg =
        (interf (rset reg code { room with queue := rest }),
         [Send.toRoom code (.playSong (some res.url) next.title next.thumbnail),
          Send.toRoom code (.queueUpdated rest)], false) := by
      simp [P1.playNextInvoke, h, hq, shift, hres, ht, hgone]
    exact ⟨hmain, by rw [hmain]; exact hgone⟩

/-- C9 witness: the amended statement at the concrete deletion race — the
post-await apply misses the registry (room still absent) yet the broadcasts
go out. -/
theorem c9_no_recheck_after_await_witness :
    P1.playNextInvoke c9resolver 0 "R" deleteRoomR c9reg =
      (deleteRoomR (rset c9reg "R" { c9room with queue := [] }),
       [Send.toRoom "R" (.playSong (some c9res.url) c9A.title c9A.thumbnail),
        Send.toRoom "R" (.queueUpdated [])], false)
    ∧ rlookup (P1.playNextInvoke c9resolver 0 "R" deleteRoomR c9reg).1 "R" = none :=
  (c9_no_recheck_after_await c9resolver 0 "R" deleteRoomR c9reg).2 c9room c9A []
    c9res rfl rfl (by decide) (by decide) (by decide)

/-- The part_000 disconnect scan: with no earlier room containing the id,
the first room containing it is updated (or deleted when emptied), exactly
one membership broadcast is emitted, and every later entry is kept
verbatim. -/
theorem p0_disconnect_scan (uid : String) (pre : Registry) (c1 : String)
    (r1 : Room) (post : Registry)
    (hpre : ∀ p ∈ pre, hasUser p.2 uid = false) (h1 : hasUser r1 uid = true) :
    P0.disconnect uid (pre ++ (c1, r1) :: post) =
      (pre ++ (if (removeFirstUser r1.users uid).isEmpty then post
               else (c1, { r1 with users := removeFirstUser r1.users uid }) :: post),
       [Send.toRoom c1 (.updateUsers (removeFirstUser r1.users uid))]) := by
  induction pre with
  | nil =>
    simp only [List.nil_append]
    by_cases he : (removeFirstUser r1.users uid).isEmpty <;>
      simp [P0.disconnect, h1, he]
  | cons q rest ih =>
    obtain ⟨c, r⟩ := q
    have hq : hasUser r uid = false := hpre (c, r) (by simp)
    have ih' := ih fun p hp => hpre p (List.mem_cons_of_mem _ hp)
    simp [P0.disconnect, hq, ih']

/-- The part_003 disconnect scan: identical behavior to part_000. -/
theorem p3_disconnect_scan (uid : String) (pre : Registry) (c1 : String)
    (r1 : Room) (post : Registry)
    (hpre : ∀ p ∈ pre, hasUser p.2 uid = false) (h1 : hasUser r1 uid = true) :
    P3.disconnect uid (pre ++ (c1, r1) :: post) =
      (pre ++ (if (removeFirstUser r1.users uid).isEmpty then post
               else (c1, { r1 with users := removeFirstUser r1.users uid }) :: post),
       [Send.toRoom c1 (.updateUsers (removeFirstUser r1.users uid))]) := by
  induction pre with
  | nil =>
    simp only [List.nil_append]
    by_cases he : (removeFirstUser r1.users uid).isEmpty <;>
      simp [P3.disconnect, h1, he]
  | cons q rest ih =>
    obtain ⟨c, r⟩ := q
    have hq : hasUser r uid = false := hpre (c, r) (by simp)
    have ih' := ih fun p hp => hpre p (List.mem_cons_of_mem _ hp)
    simp [P3.disconnect, hq, ih']

/-- C10: the disconnect scan stops at the first room (in registry iteration
order) whose member list contains the disconnecting id: that room alone is
updated (removed when emptied) with a single membership broadcast, the
preceding rooms are untouched, and every later room is kept verbatim — so a
connection id present in a second room's member list survives there as a
stale member.  Both the part_000 and part_003 handlers behave this way. -/
theorem c10_disconnect_first_match (uid : String) (pre : Registry) (c1 : String)
    (r1 : Room) (post : Registry)
    (hpre : ∀ p ∈ pre, hasUser p.2 uid = false) (h1 : hasUser r1 uid = true) :
    P0.disconnect uid (pre ++ (c1, r1) :: post) =
      (pre ++ (if (removeFirstUser r1.users uid).isEmpty then post
               else (c1, { r1 with users := removeFirstUser r1.users uid }) :: post),
       [Send.toRoom c1 (.updateUsers (removeFirstUser r1.users uid))])
    ∧ P3.disconnect uid (pre ++ (c1, r1) :: post) =
      (pre ++ (if (removeFirstUser r1.users uid).isEmpty then post
               else (c1, { r1 with users := removeFirstUser r1.users uid }) :: post),
       [Send.toRoom c1 (.updateUsers (removeFirstUser r1.users uid))])
    ∧ (∀ c2 r2, (c2, r2) ∈ post →
        (c2, r2) ∈ (P0.disconnect uid (pre ++ (c1, r1) :: post)).1) := by
  refine ⟨p0_disconnect_scan uid pre c1 r1 post hpre h1,
    p3_disconnect_scan uid pre c1 r1 post hpre h1, ?_⟩
  intro c2 r2 hm
  have heq := congrArg Prod.fst (p0_disconnect_scan uid pre c1 r1 post hpre h1)
  rw [heq]
  by_cases he : (removeFirstUser r1.users uid).isEmpty
  · simp only [he, if_true]
    exact List.mem_append_right _ hm
  · simp only [he, if_false]
    exact List.mem_append_right _ (List.mem_cons_of_mem _ hm)

/-- C10 witness: `"x"` is a member of rooms `"A"` and `"B"`; its disconnect
removes it from `"A"` only (one broadcast), and room `"B"` still lists it. -/
theorem c10_disconnect_first_match_witness :
    P0.disconnect "x" [("A", c10roomA), ("B", c10roomB)] =
      ([] ++ (if (removeFirstUser c10roomA.users "x").isEmpty then [("B", c10roomB)]
              else ("A", { c10roomA with users := removeFirstUser c10roomA.users "x" }) :: [("B", c10roomB)]),
       [Send.toRoom "A" (.updateUsers (removeFirstUser c10roomA.users "x"))])
    ∧ ("B", c10roomB) ∈ (P0.disconnect "x" [("A", c10roomA), ("B", c10roomB)]).1 := by
  have h := c10_disconnect_first_match "x" [] "A" c10roomA [("B", c10roomB)]
    (by simp) (by decide)
  exact ⟨h.1, h.2.2 "B" c10roomB (by simp)⟩

/-- `addUser` never returns the empty member list: either it appends, or the
id was found in a necessarily non-empty list. -/
theorem addUser_ne_nil (users : List User) (uid n : String) :
    addUser users uid n ≠ [] := by
  unfold addUser
  by_cases h : users.any (fun u => u.id == uid)
  · simp only [h, if_true]
    cases users with
    | nil => simp at h
    | cons a l => simp
  · simp [h]

/-- Assigning a room that has members preserves the membership invariant. -/
theorem memberInv_rset {reg : Registry} {code : String} {r : Room}
    (h : P0.memberInv reg) (hr : r.users ≠ []) :
    P0.memberInv (rset reg code r) := by
  intro p hp
  rcases mem_rset hp with rfl | h'
  · exact hr
  · exact h p h'

/-- The part_000 join handler preserves the membership invariant. -/
theorem p0_memberInv_join {reg : Registry} (h : P0.memberInv reg)
    (now : ℚ) (code uid uname : String) :
    P0.memberInv (P0.joinRoom now code uid uname reg).1 := by
  simp only [P0.joinRoom]
  exact memberInv_rset h (addUser_ne_nil _ _ _)

/-- The part_000 advance never touches member lists. -/
theorem p0_memberInv_playNext {reg : Registry} (h : P0.memberInv reg)
    (now : ℚ) (code : String) :
    P0.memberInv (P0.playNext now code reg).1 := by
  cases hrl : rlookup reg code with
  | none => simpa [P0.playNext, hrl] using h
  | some room =>
    have hr : room.users ≠ [] := h (code, room) (mem_of_rlookup hrl)
    cases hq : room.queue with
    | nil =>
      simp only [P0.playNext, hrl, hq, shift]
      exact memberInv_rset h hr
    | cons a l =>
      simp only [P0.playNext, hrl, hq, shift]
      exact memberInv_rset h hr

/-- The part_000 pause handler never touches member lists. -/
theorem p0_memberInv_pause {reg : Registry} (h : P0.memberInv reg)
    (code sender : String) (t now : ℚ) :
    P0.memberInv (P0.pauseTrack code sender t now reg).1 := by
  cases hrl : rlookup reg code with
  | none => simpa [P0.pauseTrack, hrl] using h
  | some room =>
    simp only [P0.pauseTrack, hrl]
    exact memberInv_rset h (h (code, room) (mem_of_rlookup hrl))

/-- The part_000 resume handler never touches member lists. -/
theorem p0_memberInv_play {reg : Registry} (h : P0.memberInv reg)
    (code sender : String) (t now : ℚ) :
    P0.memberInv (P0.playTrack code sender t now reg).1 := by
  cases hrl : rlookup reg code with
  | none => simpa [P0.playTrack, hrl] using h
  | some room =>
    simp only [P0.playTrack, hrl]
    exact memberInv_rset h (h (code, room) (mem_of_rlookup hrl))

/-- The part_000 seek handler never touches member lists. -/
theorem p0_memberInv_seek {reg : Registry} (h : P0.memberInv reg)
    (code sender : String) (t now : ℚ) :
    P0.memberInv (P0.seekTrack code sender t now reg).1 := by
  cases hrl : rlookup reg code with
  | none => simpa [P0.seekTrack, hrl] using h
  | some room =>
    simp only [P0.seekTrack, hrl]
    exact memberInv_rset h (h (code, room) (mem_of_rlookup hrl))

/-- The part_000 disconnect handler preserves the membership invariant: the
room it empties is deleted in the same reaction step. -/
theorem p0_memberInv_disconnect {reg : Registry} (h : P0.memberInv reg)
    (uid : String) : P0.memberInv (P0.disconnect uid reg).1 := by
  induction reg with
  | nil => simpa [P0.disconnect] using h
  | cons p rest ih =>
    obtain ⟨c, r⟩ := p
    have hrest : P0.memberInv rest := fun q hq => h q (List.mem_cons_of_mem _ hq)
    by_cases hu : hasUser r uid
    · by_cases he : (removeFirstUser r.users uid).isEmpty
      · simp only [P0.disconnect, hu, if_true, he]
        exact hrest
      · simp only [P0.disconnect, hu, if_true, he, if_false]
        intro q hq
        rcases List.mem_cons.1 hq with rfl | hq'
        · intro hnil
          have hnil' : removeFirstUser r.users uid = [] := hnil
          exact he (by simp [hnil'])
        · exact hrest q hq'
    · simp only [P0.disconnect, hu, if_false]
      intro q hq
      rcases List.mem_cons.1 hq with rfl | hq'
      · exact h (c, r) (by simp)
      · exact ih hrest q hq'

/-- Any part_000 event other than `request_song` preserves the membership
invariant. -/
theorem p0_memberInv_step {reg : Registry} (h : P0.memberInv reg) {e : P0.Ev}
    (he : P0.Ev.isReq e = false) : P0.memberInv (P0.step reg e) := by
  cases e with
  | joinE code uid uname now => exact p0_memberInv_join h now code uid uname
  | discE uid => exact p0_memberInv_disconnect h uid
  | reqE code url title thumb now => simp [P0.Ev.isReq] at he
  | skipE code now => exact p0_memberInv_playNext h now code
  | pauseE code sender t now => exact p0_memberInv_pause h code sender t now
  | playE code sender t now => exact p0_memberInv_play h code sender t now
  | seekE code sender t now => exact p0_memberInv_seek h code sender t now

/-- Folding a `request_song`-free trace preserves the membership invariant. -/
theorem p0_memberInv_foldl {evs : List P0.Ev} :
    ∀ {reg : Registry}, P0.memberInv reg → (∀ e ∈ evs, P0.Ev.isReq e = false) →
    P0.memberInv (evs.foldl P0.step reg) := by
  induction evs with
  | nil => intro reg h _; simpa using h
  | cons e rest ih =>
    intro reg h hall
    simp only [List.foldl_cons]
    exact ih (p0_memberInv_step h (hall e (by simp)))
      fun e' he' => hall e' (List.mem_cons_of_mem _ he')

/-- C2 counterexample: a single `request_song` for the fresh code `"R"`
(never joined) leaves room `"R"` present in the registry with an empty
member list — an operation that results in a zero-member room persisting in
the registry, against the claimed invariant. -/
theorem c2_zero_member_room_counterexample :
    (rlookup (P0.run [P0.Ev.reqE "R" "u" "t" none 0]) "R").isSome = true
    ∧ (rlookup (P0.run [P0.Ev.reqE "R" "u" "t" none 0]) "R").map Room.users =
        some [] :=
  ⟨rfl, rfl⟩

/-- C2 (amended): over traces made of joins, leaves and transport events —
i.e. excluding `request_song` — every room in every reachable registry has at
least one member; and the leave that removes a room's last member deletes
the room synchronously, so that room code is absent from the registry
immediately afterwards.  `request_song`, however, creates a zero-member room
for an absent code (the counterexample), so the claimed invariant does not
hold for every operation sequence. -/
theorem c2_registry_membership :
    (∀ evs : List P0.Ev, (∀ e ∈ evs, P0.Ev.isReq e = false) →
      P0.memberInv (P0.run evs))
    ∧ (∀ (uid : String) (pre : Registry) (c : String) (r : Room) (post : Registry),
        (∀ p ∈ pre, hasUser p.2 uid = false) → hasUser r uid = true →
        removeFirstUser r.users uid = [] →
        (∀ p ∈ pre ++ post, p.1 ≠ c) →
        (P0.disconnect uid (pre ++ (c, r) :: post)).1 = pre ++ post
        ∧ rlookup (P0.disconnect uid (pre ++ (c, r) :: post)).1 c = none) := by
  constructor
  · intro evs hall
    exact p0_memberInv_foldl (fun p hp => absurd hp (List.not_mem_nil p)) hall
  · intro uid pre c r post hpre hu hrm hkeys
    have hs := congrArg Prod.fst (p0_disconnect_scan uid pre c r post hpre hu)
    rw [hrm] at hs
    simp only [List.isEmpty_nil, if_true] at hs
    refine ⟨hs, ?_⟩
    rw [hs]
    exact rlookup_eq_none hkeys

/-- C2 witness: a join-only trace satisfies the invariant, and disconnecting
the only member `"x"` of room `"R"` removes the room from the registry. -/
theorem c2_registry_membership_witness :
    P0.memberInv (P0.run [P0.Ev.joinE "R" "x" "Alice" 0])
    ∧ (P0.disconnect "x" ([] ++ ("R", c2room) :: [])).1 = [] ++ []
    ∧ rlookup (P0.disconnect "x" ([] ++ ("R", c2room) :: [])).1 "R" = none := by
  have h2 := c2_registry_membership.2 "x" [] "R" c2room []
    (by simp) (by decide) (by decide) (by simp)
  refine ⟨c2_registry_membership.1 [P0.Ev.joinE "R" "x" "Alice" 0] ?_, h2.1, h2.2⟩
  intro e he
  rw [List.mem_singleton] at he
  subst he
  rfl

/-- A fresh room satisfies the transport invariant. -/
theorem p3_goodRoom_fresh (now : ℚ) : P3.goodRoom (freshRoom now) := by
  constructor
  · intro h
    simp [freshRoom] at h
  · intro s hs
    simp [freshRoom] at hs

/-- Assigning a good room preserves the registry-wide invariant. -/
theorem p3_inv_rset {reg : Registry} {code : String} {r : Room}
    (h : P3.inv reg) (hr : P3.goodRoom r) : P3.inv (rset reg code r) := by
  intro p hp
  rcases mem_rset hp with rfl | h'
  · exact hr
  · exact h p h'

/-- A room looked up in an invariant registry is good. -/
theorem p3_inv_lookup {reg : Registry} {code : String} {room : Room}
    (h : P3.inv reg) (hl : rlookup reg code = some room) : P3.goodRoom room :=
  h (code, room) (mem_of_rlookup hl)

/-- `initializeRoom` preserves the transport invariant. -/
theorem p3_inv_initializeRoom {reg : Registry} (h : P3.inv reg) (now : ℚ)
    (code : String) : P3.inv (P3.initializeRoom now code reg) := by
  cases hrl : rlookup reg code with
  | none =>
    simp only [P3.initializeRoom, hrl]
    exact p3_inv_rset h (p3_goodRoom_fresh now)
  | some room => simpa [P3.initializeRoom, hrl] using h

/-- The part_003 advance preserves the transport invariant: the idle branch
clears `isPlaying` together with the current track, and the playing branch
installs the head track's resolved stream URL (non-absent by the queue
condition) as current. -/
theorem p3_inv_playNext {reg : Registry} (h : P3.inv reg) (now : ℚ)
    (code : String) : P3.inv (P3.playNext now code reg).1 := by
  cases hrl : rlookup reg code with
  | none => simpa [P3.playNext, hrl] using h
  | some room =>
    have hg := p3_inv_lookup h hrl
    cases hq : room.queue with
    | nil =>
      simp only [P3.playNext, hrl, hq, shift]
      refine p3_inv_rset h ⟨?_, ?_⟩
      · intro hip
        simp at hip
      · intro s hs
        simp at hs
    | cons a l =>
      simp only [P3.playNext, hrl, hq, shift]
      refine p3_inv_rset h ⟨?_, ?_⟩
      · intro _
        exact hg.2 a (by rw [hq]; simp)
      · intro s hs
        exact hg.2 s (by rw [hq]; exact List.mem_cons_of_mem _ hs)

/-- The part_003 join handler preserves the transport invariant. -/
theorem p3_inv_join {reg : Registry} (h : P3.inv reg) (now : ℚ)
    (code uid uname : String) : P3.inv (P3.joinRoom now code uid uname reg).1 := by
  by_cases hc : code = ""
  · simpa [P3.joinRoom, hc] using h
  · simp only [P3.joinRoom, hc, if_false]
    cases hrl : rlookup reg code with
    | none =>
      simp only [hrl, Option.getD_none]
      refine p3_inv_rset h ⟨?_, ?_⟩
      · intro hip
        simp [freshRoom] at hip
      · intro s hs
        simp [freshRoom] at hs
    | some room =>
      simp only [hrl, Option.getD_some]
      have hg := p3_inv_lookup h hrl
      exact p3_inv_rset h ⟨hg.1, hg.2⟩

/-- The part_003 disconnect handler preserves the transport invariant. -/
theorem p3_inv_disconnect {reg : Registry} (h : P3.inv reg) (uid : String) :
    P3.inv (P3.disconnect uid reg).1 := by
  induction reg with
  | nil => simpa [P3.disconnect] using h
  | cons p rest ih =>
    obtain ⟨c, r⟩ := p
    have hrest : P3.inv rest := fun q hq => h q (List.mem_cons_of_mem _ hq)
    have hr : P3.goodRoom r := h (c, r) (by simp)
    by_cases hu : hasUser r uid
    · by_cases he : (removeFirstUser r.users uid).isEmpty
      · simp only [P3.disconnect, hu, if_true, he]
        exact hrest
      · simp only [P3.disconnect, hu, if_true, he, if_false]
        intro q hq
        rcases List.mem_cons.1 hq with rfl | hq'
        · exact ⟨hr.1, hr.2⟩
        · exact hrest q hq'
    · simp only [P3.disconnect, hu, if_false]
      intro q hq
      rcases List.mem_cons.1 hq with rfl | hq'
      · exact hr
      · exact ih hrest q hq'

/-- The part_003 request handler preserves the transport invariant: it only
ever enqueues tracks carrying a resolved (`some`) stream URL. -/
theorem p3_inv_requestSong {reg : Registry} (h : P3.inv reg) (now : ℚ)
    (code sender url title thumb : String) (resolved : Option String) :
    P3.inv (P3.requestSong now code sender url title thumb resolved reg).1 := by
  by_cases hcu : code = "" ∨ url = ""
  · simpa [P3.requestSong, hcu] using h
  · have h1 := p3_inv_initializeRoom h now code
    cases resolved with
    | none => simpa [P3.requestSong, hcu] using h1
    | some u =>
      by_cases hs : strStarts "http" u = true
      · have hroom0 : P3.goodRoom
            ((rlookup (P3.initializeRoom now code reg) code).getD (freshRoom now)) := by
          cases hrl : rlookup (P3.initializeRoom now code reg) code with
          | none => exact p3_goodRoom_fresh now
          | some room => exact p3_inv_lookup h1 hrl
        have hroom1 : P3.goodRoom
            { (rlookup (P3.initializeRoom now code reg) code).getD (freshRoom now) with
              queue := ((rlookup (P3.initializeRoom now code reg) code).getD (freshRoom now)).queue ++ [⟨if title = "" then "Unknown Track" else title, some thumb, url, some u⟩] } := by
          refine ⟨hroom0.1, fun s hs' => ?_⟩
          rcases List.mem_append.1 hs' with h' | h'
          · exact hroom0.2 s h'
          · rw [List.mem_singleton] at h'
            subst h'
            simp
        simp only [P3.requestSong, hcu, if_false, hs, if_true]
        split
        · exact p3_inv_playNext (p3_inv_rset h1 hroom1) now code
        · exact p3_inv_rset h1 hroom1
      · have hs' : strStarts "http" u = false := by
          revert hs
          cases strStarts "http" u <;> simp
        simpa [P3.requestSong, hcu, hs'] using h1

/-- The part_003 skip handler preserves the transport invariant. -/
theorem p3_inv_skip {reg : Registry} (h : P3.inv reg) (code sender : String)
    (now : ℚ) : P3.inv (P3.skipTrack code sender now reg).1 := by
  by_cases hc : code = ""
  · simpa [P3.skipTrack, hc] using h
  · cases hrl : rlookup reg code with
    | none => simpa [P3.skipTrack, hc, hrl] using h
    | some room =>
      simp only [P3.skipTrack, hc, if_false, hrl]
      exact p3_inv_playNext h now code

/-- The part_003 pause handler preserves the transport invariant. -/
theorem p3_inv_pause {reg : Registry} (h : P3.inv reg) (code sender : String)
    (t now : ℚ) : P3.inv (P3.pauseTrack code sender t now reg).1 := by
  by_cases hc : code = ""
  · simpa [P3.pauseTrack, hc] using h
  · cases hrl : rlookup reg code with
    | none => simpa [P3.pauseTrack, hc, hrl] using h
    | some room =>
      simp only [P3.pauseTrack, hc, if_false, hrl]
      have hg := p3_inv_lookup h hrl
      refine p3_inv_rset h ⟨?_, hg.2⟩
      intro hip
      simp at hip

/-- The part_003 seek handler preserves the transport invariant. -/
theorem p3_inv_seek {reg : Registry} (h : P3.inv reg) (code sender : String)
    (t now : ℚ) : P3.inv (P3.seekTrack code sender t now reg).1 := by
  by_cases hc : code = ""
  · simpa [P3.seekTrack, hc] using h
  · cases hrl : rlookup reg code with
    | none => simpa [P3.seekTrack, hc, hrl] using h
    | some room =>
      simp only [P3.seekTrack, hc, if_false, hrl]
      have hg := p3_inv_lookup h hrl
      exact p3_inv_rset h ⟨hg.1, hg.2⟩

/-- Any part_003 event other than a resume request preserves the transport
invariant. -/
theorem p3_inv_step {reg : Registry} (h : P3.inv reg) {e : P3.Ev}
    (he : P3.Ev.isResume e = false) : P3.inv (P3.step reg e) := by
  cases e with
  | joinE code uid uname now => exact p3_inv_join h now code uid uname
  | discE uid => exact p3_inv_disconnect h uid
  | reqE code sender url title thumb resolved now =>
      exact p3_inv_requestSong h now code sender url title thumb resolved
  | skipE code sender now => exact p3_inv_skip h code sender now
  | pauseE code sender t now => exact p3_inv_pause h code sender t now
  | playE code sender t now => simp [P3.Ev.isResume] at he
  | seekE code sender t now => exact p3_inv_seek h code sender t now

/-- Folding a resume-free part_003 trace preserves the transport invariant. -/
theorem p3_inv_foldl {evs : List P3.Ev} :
    ∀ {reg : Registry}, P3.inv reg → (∀ e ∈ evs, P3.Ev.isResume e = false) →
    P3.inv (evs.foldl P3.step reg) := by
  induction evs with
  | nil => intro reg h _; simpa using h
  | cons e rest ih =>
    intro reg h hall
    simp only [List.foldl_cons]
    exact ih (p3_inv_step h (hall e (by simp)))
      fun e' he' => hall e' (List.mem_cons_of_mem _ he')

/-- C7 counterexample: the trace join-then-resume — a resume (`play_track`)
request for a room whose current track is absent — reaches a state with
`isPlaying = true` and no current track, against the claimed invariant: the
resume handler checks only that the room exists, not that a track is set. -/
theorem c7_playing_without_current_counterexample :
    (rlookup (P3.run [P3.Ev.joinE "R" "x" "" 0, P3.Ev.playE "R" "x" 5 0]) "R").map
        (fun r => (r.isPlaying, r.currentSongUrl)) = some (true, none) := rfl

/-- C7 (amended): over every event sequence that contains no resume
(`play_track`) request — joins, leaves, enqueues with arbitrary resolver
outcomes, advances, skips, pauses, seeks — no reachable room has
`isPlaying = true` with an absent current track; and the queue length of any
reachable room is never negative (it is a list length).  A resume request on
a room with no current track, however, does produce `isPlaying = true` with
no current (the counterexample), so the claim fails for arbitrary
sequences. -/
theorem c7_transport_invariant :
    (∀ evs : List P3.Ev, (∀ e ∈ evs, P3.Ev.isResume e = false) →
      ∀ (code : String) (r : Room), rlookup (P3.run evs) code = some r →
        r.isPlaying = true → r.currentSongUrl ≠ none)
    ∧ (∀ (evs : List P3.Ev) (code : String) (r : Room),
        rlookup (P3.run evs) code = some r → 0 ≤ (r.queue.length : ℤ)) := by
  constructor
  · intro evs hall code r hrl hip
    have hinv : P3.inv (P3.run evs) :=
      p3_inv_foldl (fun p hp => absurd hp (List.not_mem_nil p)) hall
    exact (hinv (code, r) (mem_of_rlookup hrl)).1 hip
  · intro evs code r _
    exact Int.natCast_nonneg r.queue.length

/-- C7 witness: the resume-free trace `c7trace` reaches room `c7room`,
playing with a present current track and a non-negative queue length. -/
theorem c7_transport_invariant_witness :
    c7room.currentSongUrl ≠ none ∧ 0 ≤ (c7room.queue.length : ℤ) :=
  ⟨c7_transport_invariant.1 c7trace (by decide) "R" c7room rfl rfl,
   c7_transport_invariant.2 c7trace "R" c7room rfl⟩

end MusicJam
